import Mathlib

/-!
Verification of the Scoring & Rating Engine of the "find the sniper" game.

The definitions below are a shallow embedding of the TypeScript source:
JavaScript numbers are modelled as exact rationals (`ℚ`) wherever the code
only uses field operations, `Math.min` / `Math.max` / `Math.round` and
comparisons; `Math.exp` and `Math.pow 10` force the two transcendental
quantities (`Sraw`, `E`) into `ℝ`.  `Math.round x` is `⌊x + 1/2⌋` (JS rounds
half-way cases toward +∞).  Asynchronous database access is modelled by
passing the fetched data (or an error flag) as explicit arguments.
-/

namespace FindSniper

/-- JS `Math.round` on rationals: round half toward +∞. -/
def jround (x : ℚ) : ℤ := ⌊x + 1 / 2⌋

/-- JS `Math.round` on reals, for the Elo base delta. -/
noncomputable def jroundR (x : ℝ) : ℤ := ⌊x + 1 / 2⌋

/-- From `elo.ts`: `missPenaltyPoints(misses)` =
`Math.round(MISS_STD_DEDUCTION * Math.min(1, Math.max(0, misses / 7)))`
with `MISS_STD_DEDUCTION = 20`. -/
def missPenaltyPoints (misses : ℚ) : ℤ :=
  jround (20 * min 1 (max 0 (misses / 7)))

/-- Result record of `softPerformanceScore` (`elo.ts`). -/
structure PerfScore where
  ratioVal : ℚ
  Sraw : ℝ
  Smapped : ℝ

/-- From `elo.ts`: `softPerformanceScore(durationUsedMs, baselineMs)`:
`ratio = durationUsedMs / Math.max(1, baselineMs)`, `c = 1.20`, `k = 0.90`,
`Sraw = 1 / (1 + Math.exp(k * (ratio - c)))`, `Smapped = 0.08 + 0.84 * Sraw`. -/
noncomputable def softPerformanceScore (durationUsedMs baselineMs : ℚ) : PerfScore :=
  let r : ℚ := durationUsedMs / max 1 baselineMs
  let Sraw : ℝ := 1 / (1 + Real.exp ((9 / 10) * ((r : ℝ) - 12 / 10)))
  { ratioVal := r, Sraw := Sraw, Smapped := 8 / 100 + (84 / 100) * Sraw }

/-- Result record of `applyEloForRound` (`elo.ts`), restricted to the pure
rating computation (the fetched current ratings are inputs, the database
writes are the returned `playerAfter` / `imageAfter` values). -/
structure EloOutcome where
  playerBefore : ℚ
  playerAfter : ℚ
  imageBefore : ℚ
  imageAfter : ℚ
  S : ℝ
  E : ℝ
  ratioVal : ℚ
  baselineMs : ℚ
  durationUsed : ℚ
  baseDelta : ℤ
  penalty : ℤ
  totalDelta : ℤ

/-- Pure computational core of `applyEloForRound` (`elo.ts`, steps 3–5 and 7):
`S` is the clamped override if `sOverride` is supplied, otherwise the soft
performance mapping; `E = 1 / (1 + 10 ^ (-(player - image) / 400))`;
`K = overrideK ?? 20`; `baseDelta = Math.round(K * (S - E))`;
`penalty = missPenaltyPoints(misses)`; `totalDelta = baseDelta - penalty`;
`newPlayer = player + totalDelta`; `newImage = image - baseDelta`. -/
noncomputable def applyEloCore (playerRating imageRating durationMs baselineMs misses : ℚ)
    (overrideK sOverride : Option ℚ) : EloOutcome :=
  let S : ℝ := match sOverride with
    | some s => ((min 1 (max 0 s) : ℚ) : ℝ)
    | none => (softPerformanceScore durationMs baselineMs).Smapped
  let r : ℚ := match sOverride with
    | some _ => durationMs / max 1 baselineMs
    | none => (softPerformanceScore durationMs baselineMs).ratioVal
  let E : ℝ := 1 / (1 + (10 : ℝ) ^ (-(((playerRating - imageRating : ℚ) : ℝ) / 400)))
  let K : ℚ := overrideK.getD 20
  let baseDelta : ℤ := jroundR ((K : ℝ) * (S - E))
  let penalty : ℤ := missPenaltyPoints misses
  let totalDelta : ℤ := baseDelta - penalty
  { playerBefore := playerRating
    playerAfter := playerRating + totalDelta
    imageBefore := imageRating
    imageAfter := imageRating - baseDelta
    S := S
    E := E
    ratioVal := r
    baselineMs := baselineMs
    durationUsed := durationMs
    baseDelta := baseDelta
    penalty := penalty
    totalDelta := totalDelta }

/-- From `play-db/[id]/page.tsx`: `durationWithMissPenalty(ms, misses)` =
`Math.round(ms * Math.min(1.0 + 0.04 * misses, 1.40))`. -/
def durationWithMissPenalty (ms misses : ℚ) : ℚ :=
  (jround (ms * min (1 + (4 / 100) * misses) (14 / 10)) : ℚ)

/-- From `play-db/[id]/page.tsx`: `buildUsedMs(rawMs, misses, baselineMs)` —
same formula as `durationWithMissPenalty`; the `baselineMs` argument is
accepted but unused, as in the source. -/
def buildUsedMs (rawMs misses _baselineMs : ℚ) : ℚ :=
  (jround (rawMs * min (1 + (4 / 100) * misses) (14 / 10)) : ℚ)

/-- The `result` column of a `scores` row: `'success' | 'hard_stop' | 'give_up'`. -/
inductive RoundResult where
  | success
  | hardStop
  | giveUp
deriving DecidableEq, Repr

/-- Boolean test used when scanning history for a prior success. -/
def RoundResult.isSuccess : RoundResult → Bool
  | .success => true
  | _ => false

/-- The fields of the `scores` row inserted at settlement
(`play-db/[id]/page.tsx`, the `supabase.from('scores').insert` calls). -/
structure ScoreRow where
  ms : ℚ
  duration_ms : ℚ
  wrong_clicks : ℚ
  result : RoundResult
  rated : Bool
  elo_player_before : Option ℚ
  elo_image_before : Option ℚ
  elo_player_after : Option ℚ
  elo_image_after : Option ℚ

/-- Everything a single settlement produces: the used duration, the rated
flag, the Elo call result (`none` when the updater was not called) and the
persisted `scores` row. -/
structure Settlement where
  usedMs : ℚ
  rated : Bool
  elo : Option EloOutcome
  row : ScoreRow

/-- Default `ScoreRow`, only used as the `List.getD` fallback. -/
def defaultRow : ScoreRow :=
  { ms := 0, duration_ms := 0, wrong_clicks := 0, result := .giveUp, rated := true
    elo_player_before := none, elo_image_before := none
    elo_player_after := none, elo_image_after := none }

/-- Default `Settlement`, only used as the `List.getD` fallback. -/
def defaultSettlement : Settlement :=
  { usedMs := 0, rated := true, elo := none, row := defaultRow }

/-- Builds the persisted `scores` row from the settlement data: the four Elo
snapshot columns are `elo?.x ?? null`. -/
def mkRow (rawMs usedMs wrongClicks : ℚ) (result : RoundResult) (rated : Bool)
    (elo : Option EloOutcome) : ScoreRow :=
  { ms := rawMs
    duration_ms := usedMs
    wrong_clicks := wrongClicks
    result := result
    rated := rated
    elo_player_before := elo.map (·.playerBefore)
    elo_image_before := elo.map (·.imageBefore)
    elo_player_after := elo.map (·.playerAfter)
    elo_image_after := elo.map (·.imageAfter) }

/-- Pure core of `endRoundSuccess` (`play-db/[id]/page.tsx`): the fetched
baseline, the computed `rawMs`, the current miss count, the result of the
`hasSolvedBefore` query and the fetched ratings are inputs.
`usedMs = buildUsedMs(rawMs, misses, baselineMs)`; `rated = !solvedBefore`;
the Elo updater runs only when `rated`, with no overrides. -/
noncomputable def endRoundSuccessCore (rawMs baselineMs misses : ℚ) (solvedBefore : Bool)
    (playerRating imageRating : ℚ) : Settlement :=
  let usedMs := buildUsedMs rawMs misses baselineMs
  let rated := !solvedBefore
  let elo : Option EloOutcome :=
    if rated then some (applyEloCore playerRating imageRating usedMs baselineMs misses none none)
    else none
  { usedMs := usedMs, rated := rated, elo := elo
    row := mkRow rawMs usedMs misses .success rated elo }

/-- Pure core of `endRoundHardStop` (`play-db/[id]/page.tsx`):
`usedMs = Math.max(Math.round(rawMs * 1.40), Math.round(baselineMs * 6))`;
`rated = !solvedBefore`; the Elo updater runs only when `rated`, with
`misses = 10`, `sOverride = 0.05`, `overrideK = 16`; the row records
`wrong_clicks = 10`. -/
noncomputable def endRoundHardStopCore (rawMs baselineMs : ℚ) (solvedBefore : Bool)
    (playerRating imageRating : ℚ) : Settlement :=
  let penalized : ℚ := (jround (rawMs * (14 / 10)) : ℚ)
  let verySlow : ℚ := (jround (baselineMs * 6) : ℚ)
  let usedMs := max penalized verySlow
  let rated := !solvedBefore
  let elo : Option EloOutcome :=
    if rated then
      some (applyEloCore playerRating imageRating usedMs baselineMs 10 (some 16) (some (5 / 100)))
    else none
  { usedMs := usedMs, rated := rated, elo := elo
    row := mkRow rawMs usedMs 10 .hardStop rated elo }

/-- Pure core of `endRoundGiveUp` (`play-db/[id]/page.tsx`): same `usedMs`
formula as the hard stop; the Elo updater runs only when `rated`, with the
round's actual miss count and `sOverride = 0.05`, `overrideK = 16`. -/
noncomputable def endRoundGiveUpCore (rawMs baselineMs misses : ℚ) (solvedBefore : Bool)
    (playerRating imageRating : ℚ) : Settlement :=
  let penalized : ℚ := (jround (rawMs * (14 / 10)) : ℚ)
  let verySlow : ℚ := (jround (baselineMs * 6) : ℚ)
  let usedMs := max penalized verySlow
  let rated := !solvedBefore
  let elo : Option EloOutcome :=
    if rated then
      some (applyEloCore playerRating imageRating usedMs baselineMs misses (some 16) (some (5 / 100)))
    else none
  { usedMs := usedMs, rated := rated, elo := elo
    row := mkRow rawMs usedMs misses .giveUp rated elo }

/-- From `play-db/[id]/page.tsx`: `hasSolvedBefore(supabase, playerId, imageId)`.
The query outcome is an input: `Except.error` models `error` being set, and
`Except.ok rows` models the returned `data` (ids of matching success rows,
limited to 1 by the query).  An empty `playerId` short-circuits to `false`;
a query error is logged and `false` is returned; otherwise the result is
`Array.isArray(data) && data.length > 0`. -/
def hasSolvedBefore (playerId : String) (queryRes : Except Unit (List ℕ)) : Bool :=
  if playerId = ("") then false
  else
    match queryRes with
    | .error _ => false
    | .ok data => data.length > 0

/-- From `rating.ts`: `DEFAULT_BASELINE = 180000` (3 minutes fallback). -/
def DEFAULT_BASELINE : ℚ := 180000

/-- From `rating.ts`: `percentile60(arr)` — `NaN` (modelled as `none`) on an
empty array; otherwise sort ascending and take index
`Math.floor(0.60 * (a.length - 1))`. -/
def percentile60 (arr : List ℚ) : Option ℚ :=
  if arr.length = 0 then none
  else
    let a := List.insertionSort (· ≤ ·) arr
    some (a.getD (⌊(6 / 10 : ℚ) * ((arr.length : ℚ) - 1)⌋.toNat) 0)

/-- From `rating.ts`: `getBaselineForImageP60(supabase, imageId)`.  The two
query results (up to 200 most-recent non-null per-image durations; up to 500
most-recent global durations) and a data-access error flag are inputs.
With ≥ 10 image samples: `max(percentile60(image), DEFAULT_BASELINE)`;
else with > 0 global samples: `max(percentile60(global), DEFAULT_BASELINE)`;
else `DEFAULT_BASELINE`; and `DEFAULT_BASELINE` on any caught error. -/
def getBaselineForImageP60 (imageScores globalScores : List ℚ) (fetchError : Bool) : ℚ :=
  if fetchError then DEFAULT_BASELINE
  else if 10 ≤ imageScores.length then
    max ((percentile60 imageScores).getD 0) DEFAULT_BASELINE
  else if 0 < globalScores.length then
    max ((percentile60 globalScores).getD 0) DEFAULT_BASELINE
  else DEFAULT_BASELINE

/-- One completed round attempt of a fixed `(playerId, imageId)` pair, as fed
to settlement: terminal outcome, the measured `rawMs`, the fetched baseline,
the miss count and the ratings fetched by the Elo updater. -/
structure RoundEventData where
  outcome : RoundResult
  rawMs : ℚ
  baselineMs : ℚ
  misses : ℚ
  playerRating : ℚ
  imageRating : ℚ

/-- The `hasSolvedBefore` history query against the accumulated `scores`
rows of the pair: does any prior row have `result = 'success'`? -/
def histHasSuccess (hist : List ScoreRow) : Bool :=
  hist.any (fun r => r.result.isSuccess)

/-- Settlement of one round given the player's durable history for this
image: the rated flag comes from a fresh history scan, then the matching
end-round core runs. -/
noncomputable def settleRound (hist : List ScoreRow) (e : RoundEventData) : Settlement :=
  let sb := histHasSuccess hist
  match e.outcome with
  | .success => endRoundSuccessCore e.rawMs e.baselineMs e.misses sb e.playerRating e.imageRating
  | .hardStop => endRoundHardStopCore e.rawMs e.baselineMs sb e.playerRating e.imageRating
  | .giveUp => endRoundGiveUpCore e.rawMs e.baselineMs e.misses sb e.playerRating e.imageRating

/-- Sequentially settle a list of rounds, starting from history `hist`;
every settled round's row is appended to the durable history before the
next round is settled. -/
noncomputable def runRoundsAux (hist : List ScoreRow) : List RoundEventData → List Settlement
  | [] => []
  | e :: es =>
    let st := settleRound hist e
    st :: runRoundsAux (hist ++ [st.row]) es

/-- Settle a list of rounds for a `(playerId, imageId)` pair with no prior
history. -/
noncomputable def runRounds (events : List RoundEventData) : List Settlement :=
  runRoundsAux [] events

/-- The latest `targets` row for the image: centre and radius in native
image pixel coordinates. -/
structure TargetSpot where
  cx : ℚ
  cy : ℚ
  radius : ℚ

/-- Data the round page has fetched or will fetch during one round: the
target, the native image size, the baseline, the `hasSolvedBefore` answer
and the ratings the Elo updater will read. -/
structure RoundEnv where
  baselineMs : ℚ
  solvedBefore : Bool
  playerRating : ℚ
  imageRating : ℚ
  target : TargetSpot
  naturalW : ℚ
  naturalH : ℚ

/-- One click event: the `performance.now()` timestamp, the click position
relative to the rendered image, and the rendered image size. -/
structure ClickInput where
  now : ℚ
  clickX : ℚ
  clickY : ℚ
  renderedW : ℚ
  renderedH : ℚ

/-- The page `status` values reachable while a round is in play: `"ready"`
during play, `"found"` once any end-round function has run. -/
inductive PageStatus where
  | ready
  | found
deriving DecidableEq, Repr

/-- The per-round mutable state of `PlayDbPage`: the `started` flag, the
page status, the `isRoundOverRef` lock, the miss count and cooldown
timestamp, the round start time, plus the externally visible effects —
the inserted `scores` rows and the number of Elo rating mutations. -/
structure RoundState where
  started : Bool
  status : PageStatus
  locked : Bool
  misses : ℕ
  lastMissAt : ℚ
  roundStartTime : ℚ
  rows : List ScoreRow
  eloCalls : ℕ

/-- From `play-db/[id]/page.tsx`: `MISS_COOLDOWN_MS = 250`. -/
def MISS_COOLDOWN_MS : ℚ := 250

/-- Applying one settlement to the page state: `lockRound()` sets the lock,
the status becomes `found`, one `scores` row is inserted, and the Elo call
counter increases iff the updater ran. -/
noncomputable def settleWith (s : RoundState) (st : Settlement) : RoundState :=
  { s with locked := true, status := .found
           rows := s.rows ++ [st.row]
           eloCalls := s.eloCalls + (if st.elo.isSome then 1 else 0) }

/-- `endRoundSuccess` at the state level:
`rawMs = Math.max(0, Math.round(now - roundStartTimeRef.current))`, then the
success settlement core runs with the current miss count. -/
noncomputable def doEndSuccess (env : RoundEnv) (s : RoundState) (now : ℚ) : RoundState :=
  let rawMs : ℚ := max 0 (jround (now - s.roundStartTime) : ℚ)
  settleWith s
    (endRoundSuccessCore rawMs env.baselineMs (s.misses : ℚ) env.solvedBefore
      env.playerRating env.imageRating)

/-- `endRoundHardStop` at the state level. -/
noncomputable def doEndHardStop (env : RoundEnv) (s : RoundState) (now : ℚ) : RoundState :=
  let rawMs : ℚ := max 0 (jround (now - s.roundStartTime) : ℚ)
  settleWith s
    (endRoundHardStopCore rawMs env.baselineMs env.solvedBefore
      env.playerRating env.imageRating)

/-- `endRoundGiveUp` at the state level. -/
noncomputable def doEndGiveUp (env : RoundEnv) (s : RoundState) (now : ℚ) : RoundState :=
  let rawMs : ℚ := max 0 (jround (now - s.roundStartTime) : ℚ)
  settleWith s
    (endRoundGiveUpCore rawMs env.baselineMs (s.misses : ℚ) env.solvedBefore
      env.playerRating env.imageRating)

/-- The hit test of `handleClick` (`play-db/[id]/page.tsx`): the click is
scaled from rendered to native image coordinates
(`cxNat = clickX * naturalW / renderedW`, `cyNat = clickY * naturalH /
renderedH`), and `dist = Math.sqrt(dx*dx + dy*dy) ≤ target.radius` is the
Euclidean distance comparison against the target's centre and radius. -/
def hitTest (env : RoundEnv) (c : ClickInput) : Prop :=
  let cxNat : ℚ := c.clickX * env.naturalW / c.renderedW
  let cyNat : ℚ := c.clickY * env.naturalH / c.renderedH
  let dx : ℚ := cxNat - env.target.cx
  let dy : ℚ := cyNat - env.target.cy
  Real.sqrt ((dx : ℝ) * (dx : ℝ) + (dy : ℝ) * (dy : ℝ)) ≤ (env.target.radius : ℝ)

open Classical in
/-- From `play-db/[id]/page.tsx`: `handleClick(e)`.  Guard chain in source
order: round lock, miss cap, 250 ms cooldown, presence/status/started
guard.  Then the scaled Euclidean `hitTest` runs; a hit ends the round in
success, a miss increments the (capped) miss counter and stamps the
cooldown, and reaching 10 misses forces the hard stop. -/
noncomputable def handleClick (env : RoundEnv) (s : RoundState) (c : ClickInput) : RoundState :=
  if s.locked then s
  else if 10 ≤ s.misses then s
  else if c.now - s.lastMissAt < MISS_COOLDOWN_MS then s
  else if ¬(s.status = .ready ∧ s.started = true) then s
  else if hitTest env c then
    doEndSuccess env s c.now
  else
    let newMisses : ℕ := min 10 (s.misses + 1)
    let s' := { s with misses := newMisses, lastMissAt := c.now }
    if 10 ≤ newMisses then doEndHardStop env s' c.now else s'

/-- From `play-db/[id]/page.tsx`: `handleGiveUp()` — a no-op when the round
lock is set, otherwise the give-up settlement runs. -/
noncomputable def handleGiveUp (env : RoundEnv) (s : RoundState) (now : ℚ) : RoundState :=
  if s.locked then s else doEndGiveUp env s now

/-- An input event of an in-progress round: a click or a give-up request. -/
inductive RoundEvent where
  | click (c : ClickInput)
  | giveUpAt (now : ℚ)

/-- Dispatch one event against the current page state. -/
noncomputable def stepRound (env : RoundEnv) (s : RoundState) : RoundEvent → RoundState
  | .click c => handleClick env s c
  | .giveUpAt t => handleGiveUp env s t

/-- Process a sequence of events. -/
noncomputable def runRound (env : RoundEnv) (s : RoundState) : List RoundEvent → RoundState
  | [] => s
  | e :: es => runRound env (stepRound env s e) es

/-- State of a freshly started round (`handleStart`): started, status
`ready`, unlocked, no misses, no persisted rows, no rating mutations. -/
def initState (t0 : ℚ) : RoundState :=
  { started := true, status := .ready, locked := false, misses := 0
    lastMissAt := 0, roundStartTime := t0, rows := [], eloCalls := 0 }

/-- Arguments of one `applyEloForRound` call other than the fetched player
rating (same player, possibly different images). -/
structure EloCallArgs where
  imageRating : ℚ
  durationMs : ℚ
  baselineMs : ℚ
  misses : ℚ
  overrideK : Option ℚ
  sOverride : Option ℚ

/-- One settlement's Elo computation given the player rating it fetched. -/
noncomputable def eloWithFetched (fetched : ℚ) (a : EloCallArgs) : EloOutcome :=
  applyEloCore fetched a.imageRating a.durationMs a.baselineMs a.misses a.overrideK a.sOverride

/-- The stored player rating after two concurrent settlements interleave as
fetch-A, fetch-B, write-A, write-B.  `applyEloForRound` persists with
`update({ rating: newPlayer })` — an absolute overwrite of the value it
computed from its own earlier fetch — so B's write replaces A's. -/
noncomputable def interleavedFinalRating (initial : ℚ) (a b : EloCallArgs) : ℚ :=
  let fetchedA := initial
  let fetchedB := initial
  let writeA := (eloWithFetched fetchedA a).playerAfter
  let writeB := (eloWithFetched fetchedB b).playerAfter
  let _ := writeA
  writeB

/-- A concrete target: centre (5, 5), radius 1 (native pixels). -/
def spotTarget : TargetSpot := { cx := 5, cy := 5, radius := 1 }

/-- A concrete round environment around `spotTarget` on a 100 × 100 image. -/
def spotEnv : RoundEnv :=
  { baselineMs := 180000, solvedBefore := false, playerRating := 1500
    imageRating := 1500, target := spotTarget, naturalW := 100, naturalH := 100 }

/-- A concrete click dead on the target centre at `t = 5000` ms, with the
image rendered at its native size. -/
def spotClick : ClickInput :=
  { now := 5000, clickX := 5, clickY := 5, renderedW := 100, renderedH := 100 }

/-- A concrete already-settled state (lock set, one rating mutation done). -/
def lockedState : RoundState :=
  { started := true, status := .found, locked := true, misses := 3
    lastMissAt := 0, roundStartTime := 0, rows := [], eloCalls := 1 }

/-- A concrete active state whose last registered miss was 100 ms before
`spotClick` fires — inside the 250 ms cooldown window. -/
def cooldownState : RoundState :=
  { started := true, status := .ready, locked := false, misses := 1
    lastMissAt := 4900, roundStartTime := 0, rows := [], eloCalls := 0 }

/-- Default `RoundEventData`, only used as the `List.getD` fallback. -/
def defaultEvent : RoundEventData :=
  { outcome := .giveUp, rawMs := 0, baselineMs := 0, misses := 0
    playerRating := 0, imageRating := 0 }

/-- A concrete successful round event (60 s against a 180 s baseline, no
misses, both ratings 1500), used to instantiate the round-history law. -/
def successEv : RoundEventData :=
  { outcome := .success, rawMs := 60000, baselineMs := 180000, misses := 0
    playerRating := 1500, imageRating := 1500 }

/-- A concrete rated hard-stop settlement against an image at rating 1500:
`durationMs = 6 × 180000`, 10 misses, forced `S = 0.05`, `K = 16`. -/
def hardStopArgs : EloCallArgs :=
  { imageRating := 1500, durationMs := 1080000, baselineMs := 180000, misses := 10
    overrideK := some 16, sOverride := some (5 / 100) }

/-- C1: For every call to the Elo updater with player rating `p`, image
rating `i`, score `S`, miss count `m ≥ 0` and K-factor `K = overrideK ?? 20`:
with `E = 1/(1+10^(-(p-i)/400))`, `baseDelta = round(K*(S-E))` and
`penalty = round(20*min(1, m/7))`, the returned `playerAfter` is
`p + (baseDelta - penalty)` and the returned `imageAfter` is `i - baseDelta`;
the miss penalty hits the player only, and the image rating does not depend
on the miss count at all. -/
theorem elo_update_shape (p i d b m : ℚ) (oK sS : Option ℚ) (hm : 0 ≤ m) :
    (applyEloCore p i d b m oK sS).playerAfter
      = p + (((applyEloCore p i d b m oK sS).baseDelta : ℚ)
          - ((applyEloCore p i d b m oK sS).penalty : ℚ))
    ∧ (applyEloCore p i d b m oK sS).imageAfter
      = i - ((applyEloCore p i d b m oK sS).baseDelta : ℚ)
    ∧ (applyEloCore p i d b m oK sS).E
      = 1 / (1 + (10 : ℝ) ^ (-(((p : ℝ) - (i : ℝ)) / 400)))
    ∧ (applyEloCore p i d b m oK sS).baseDelta
      = jroundR (((oK.getD 20 : ℚ) : ℝ)
          * ((applyEloCore p i d b m oK sS).S - (applyEloCore p i d b m oK sS).E))
    ∧ (applyEloCore p i d b m oK sS).penalty = jround (20 * min 1 (m / 7))
    ∧ ∀ m' : ℚ, (applyEloCore p i d b m' oK sS).imageAfter
        = (applyEloCore p i d b m oK sS).imageAfter := by
  refine ⟨?_, ?_, ?_, ?_, ?_, ?_⟩
  · simp [applyEloCore]
  · simp [applyEloCore]
  · simp only [applyEloCore]
    push_cast
    ring_nf
  · simp [applyEloCore]
  · simp only [applyEloCore, missPenaltyPoints]
    rw [max_eq_right (by positivity)]
  · intro m'
    simp [applyEloCore]

/-- C1 witness: the update shape at player 1500, image 1400, a 60 s round
against a 180 s baseline and 3 misses. -/
theorem elo_update_shape_spot :
    (0 : ℚ) ≤ 3
    ∧ ((applyEloCore 1500 1400 60000 180000 3 none none).playerAfter
        = 1500 + (((applyEloCore 1500 1400 60000 180000 3 none none).baseDelta : ℚ)
            - ((applyEloCore 1500 1400 60000 180000 3 none none).penalty : ℚ))
      ∧ (applyEloCore 1500 1400 60000 180000 3 none none).imageAfter
        = 1400 - ((applyEloCore 1500 1400 60000 180000 3 none none).baseDelta : ℚ)
      ∧ (applyEloCore 1500 1400 60000 180000 3 none none).E
        = 1 / (1 + (10 : ℝ) ^ (-((((1500 : ℚ) : ℝ) - ((1400 : ℚ) : ℝ)) / 400)))
      ∧ (applyEloCore 1500 1400 60000 180000 3 none none).baseDelta
        = jroundR ((((none : Option ℚ).getD 20 : ℚ) : ℝ)
            * ((applyEloCore 1500 1400 60000 180000 3 none none).S
              - (applyEloCore 1500 1400 60000 180000 3 none none).E))
      ∧ (applyEloCore 1500 1400 60000 180000 3 none none).penalty
        = jround (20 * min 1 ((3 : ℚ) / 7))
      ∧ ∀ m' : ℚ, (applyEloCore 1500 1400 60000 180000 m' none none).imageAfter
          = (applyEloCore 1500 1400 60000 180000 3 none none).imageAfter) :=
  ⟨by norm_num, elo_update_shape 1500 1400 60000 180000 3 none none (by norm_num)⟩

/-- C5 counterexample: at `rawMs = 1`, `misses = 1` the success-path used
duration is `Math.round(1 × 1.04) = 1`, not the unrounded
`1 × min(1 + 0.04 × 1, 1.4) = 1.04` the claim states. -/
theorem used_duration_formula_cex :
    (endRoundSuccessCore 1 180000 1 false 1500 1500).usedMs
      ≠ 1 * min (1 + (4 / 100) * (1 : ℚ)) (14 / 10) := by
  have h : (endRoundSuccessCore 1 180000 1 false 1500 1500).usedMs = 1 := by
    simp only [endRoundSuccessCore, buildUsedMs, jround]
    norm_num
  rw [h]
  norm_num

/-- C5 (amended): for every `rawMs` and `misses`, the penalized used
duration equals `round(rawMs × min(1 + 0.04 × misses, 1.4))`, with the
factor exactly 1.4 at `misses = 10`; `durationWithMissPenalty` and
`buildUsedMs` are the same formula; the success path applies it at the
round's miss count, and the hard-stop and give-up paths apply it at the
capped factor 1.4 (i.e. at miss count 10) as the raw component under the
`6 × baseline` floor. -/
theorem used_duration_formula (raw m b : ℚ) (sb : Bool) (p i : ℚ) :
    buildUsedMs raw m b = (jround (raw * min (1 + (4 / 100) * m) (14 / 10)) : ℚ)
    ∧ durationWithMissPenalty raw m = buildUsedMs raw m b
    ∧ min (1 + (4 / 100) * (10 : ℚ)) (14 / 10) = 14 / 10
    ∧ (endRoundSuccessCore raw b m sb p i).usedMs = buildUsedMs raw m b
    ∧ (endRoundHardStopCore raw b sb p i).usedMs
        = max (buildUsedMs raw 10 b) (jround (b * 6) : ℚ)
    ∧ (endRoundGiveUpCore raw b m sb p i).usedMs
        = max (buildUsedMs raw 10 b) (jround (b * 6) : ℚ) := by
  have h10 : min (1 + (4 / 100) * (10 : ℚ)) (14 / 10) = 14 / 10 := by norm_num
  have hbuild : buildUsedMs raw 10 b = (jround (raw * (14 / 10)) : ℚ) := by
    rw [buildUsedMs, h10]
  refine ⟨rfl, rfl, h10, ?_, ?_, ?_⟩
  · simp [endRoundSuccessCore]
  · rw [endRoundHardStopCore, hbuild]
  · rw [endRoundGiveUpCore, hbuild]

/-- C6: with no override score, the performance score `S` of the Elo
updater is the logistic `Smapped = 0.08 + 0.84 × Sraw` of
`softPerformanceScore`, and it always lies in `[0.08, 0.92]` (in fact
strictly inside), so no input can drive it to 0 or 1. -/
theorem score_safety_band (p i d b m : ℚ) (oK : Option ℚ) :
    (applyEloCore p i d b m oK none).S = (softPerformanceScore d b).Smapped
    ∧ (8 / 100 : ℝ) < (softPerformanceScore d b).Smapped
    ∧ (softPerformanceScore d b).Smapped < (92 / 100 : ℝ)
    ∧ (8 / 100 : ℝ) ≤ (applyEloCore p i d b m oK none).S
    ∧ (applyEloCore p i d b m oK none).S ≤ (92 / 100 : ℝ) := by
  have hS : (applyEloCore p i d b m oK none).S = (softPerformanceScore d b).Smapped := by
    simp [applyEloCore]
  have hx : (0 : ℝ) < Real.exp ((9 / 10)
      * (((d / max 1 b : ℚ) : ℝ) - 12 / 10)) := Real.exp_pos _
  have hlo : (0 : ℝ) < 1 / (1 + Real.exp ((9 / 10)
      * (((d / max 1 b : ℚ) : ℝ) - 12 / 10))) := by positivity
  have hhi : 1 / (1 + Real.exp ((9 / 10)
      * (((d / max 1 b : ℚ) : ℝ) - 12 / 10))) < 1 := by
    rw [div_lt_one (by linarith)]
    linarith
  have hband1 : (8 / 100 : ℝ) < (softPerformanceScore d b).Smapped := by
    simp only [softPerformanceScore]
    nlinarith
  have hband2 : (softPerformanceScore d b).Smapped < (92 / 100 : ℝ) := by
    simp only [softPerformanceScore]
    nlinarith
  exact ⟨hS, hband1, hband2, by rw [hS]; linarith, by rw [hS]; linarith⟩

/-- C2 counterexample: at `rawMs = 1000001`, `baselineMs = 180000` the
hard-stop settlement computes
`usedMs = max(round(1000001 × 1.4), round(180000 × 6)) = 1400001`, not the
unrounded `max(1000001 × 1.4, 180000 × 6) = 1400001.4` the claim states. -/
theorem failed_round_settlement_cex :
    (endRoundHardStopCore 1000001 180000 false 1500 1500).usedMs
      ≠ max ((1000001 : ℚ) * (14 / 10)) ((180000 : ℚ) * 6) := by
  have h : (endRoundHardStopCore 1000001 180000 false 1500 1500).usedMs = 1400001 := by
    simp only [endRoundHardStopCore, jround]
    norm_num [max_def]
  rw [h]
  norm_num [max_def]

/-- C2 (amended): for every round that ends in `hard_stop` or `give_up`,
settlement computes `usedMs = max(round(rawMs × 1.40), round(baselineMs × 6))`
(each operand rounded as in the source), and when rated the rating update is
invoked with the forced override score `S = 0.05` and `K = 16` instead of the
logistic mapping (the updater's `S` is the clamped override `0.05` and its
base delta uses `K = 16`); the `rated` flag is still `!solvedBefore`,
computed from the history query, never forced. -/
theorem failed_round_settlement (raw b m d : ℚ) (sb : Bool) (p i : ℚ) :
    (endRoundHardStopCore raw b sb p i).usedMs
        = max ((jround (raw * (14 / 10)) : ℚ)) ((jround (b * 6) : ℚ))
    ∧ (endRoundGiveUpCore raw b m sb p i).usedMs
        = max ((jround (raw * (14 / 10)) : ℚ)) ((jround (b * 6) : ℚ))
    ∧ (endRoundHardStopCore raw b sb p i).rated = !sb
    ∧ (endRoundGiveUpCore raw b m sb p i).rated = !sb
    ∧ (endRoundHardStopCore raw b sb p i).elo
        = (if sb then none
           else some (applyEloCore p i ((endRoundHardStopCore raw b sb p i).usedMs) b
              10 (some 16) (some (5 / 100))))
    ∧ (endRoundGiveUpCore raw b m sb p i).elo
        = (if sb then none
           else some (applyEloCore p i ((endRoundGiveUpCore raw b m sb p i).usedMs) b
              m (some 16) (some (5 / 100))))
    ∧ (applyEloCore p i d b m (some 16) (some (5 / 100))).S = (5 / 100 : ℝ)
    ∧ (applyEloCore p i d b m (some 16) (some (5 / 100))).baseDelta
        = jroundR ((16 : ℝ)
            * ((5 / 100 : ℝ) - (applyEloCore p i d b m (some 16) (some (5 / 100))).E)) := by
  have hS : (applyEloCore p i d b m (some 16) (some (5 / 100))).S = (5 / 100 : ℝ) := by
    simp only [applyEloCore]
    norm_num [min_def, max_def]
  refine ⟨?_, ?_, ?_, ?_, ?_, ?_, hS, ?_⟩
  · simp [endRoundHardStopCore]
  · simp [endRoundGiveUpCore]
  · simp [endRoundHardStopCore]
  · simp [endRoundGiveUpCore]
  · cases sb <;> simp [endRoundHardStopCore]
  · cases sb <;> simp [endRoundGiveUpCore]
  · have hK : (applyEloCore p i d b m (some 16) (some (5 / 100))).baseDelta
        = jroundR ((((16 : ℚ) : ℝ))
            * ((applyEloCore p i d b m (some 16) (some (5 / 100))).S
              - (applyEloCore p i d b m (some 16) (some (5 / 100))).E)) := by
      simp [applyEloCore]
    rw [hK, hS]
    push_cast
    ring_nf

/-- C10: when the prior-success history query fails, `hasSolvedBefore`
returns `false` instead of propagating the error, so the success settlement
computes `rated = true` and invokes the Elo updater — regardless of whether
the player has in fact already solved the image. -/
theorem solved_error_fail_open (pid : String) (raw b m p i : ℚ) (hpid : pid ≠ ("")) :
    hasSolvedBefore pid (Except.error ()) = false
    ∧ (endRoundSuccessCore raw b m (hasSolvedBefore pid (Except.error ())) p i).rated = true
    ∧ (endRoundSuccessCore raw b m (hasSolvedBefore pid (Except.error ())) p i).elo
        = some (applyEloCore p i (buildUsedMs raw m b) b m none none) := by
  have h : hasSolvedBefore pid (Except.error ()) = false := by
    simp [hasSolvedBefore, hpid]
  refine ⟨h, ?_, ?_⟩
  · rw [h]
    simp [endRoundSuccessCore]
  · rw [h]
    simp [endRoundSuccessCore]

/-- C10 witness: the fail-open behaviour for the concrete player id `p1`. -/
theorem solved_error_fail_open_spot :
    ("p1" : String) ≠ ("")
    ∧ (hasSolvedBefore ("p1") (Except.error ()) = false
      ∧ (endRoundSuccessCore 60000 180000 2
          (hasSolvedBefore ("p1") (Except.error ())) 1500 1500).rated = true
      ∧ (endRoundSuccessCore 60000 180000 2
          (hasSolvedBefore ("p1") (Except.error ())) 1500 1500).elo
          = some (applyEloCore 1500 1500 (buildUsedMs 60000 2 180000) 180000 2 none none)) :=
  ⟨by decide, solved_error_fail_open ("p1") 60000 180000 2 1500 1500 (by decide)⟩

/-- C4: `getBaselineForImageP60` returns `max(p60, DEFAULT_BASELINE)` over
the fetched per-image durations whenever at least 10 samples exist, with p60
at index `⌊0.60 × (n − 1)⌋` of the ascending sort; otherwise it applies the
same computation to the fetched global durations when any exist; it returns
exactly `DEFAULT_BASELINE = 180000` when no data exists at all, and degrades
to `DEFAULT_BASELINE` on any data-access error. -/
theorem baseline_p60_cases (img glob : List ℚ) :
    getBaselineForImageP60 img glob true = DEFAULT_BASELINE
    ∧ (10 ≤ img.length →
        getBaselineForImageP60 img glob false
          = max ((List.insertionSort (· ≤ ·) img).getD
              (⌊(6 / 10 : ℚ) * ((img.length : ℚ) - 1)⌋.toNat) 0) DEFAULT_BASELINE)
    ∧ (img.length < 10 → 0 < glob.length →
        getBaselineForImageP60 img glob false
          = max ((List.insertionSort (· ≤ ·) glob).getD
              (⌊(6 / 10 : ℚ) * ((glob.length : ℚ) - 1)⌋.toNat) 0) DEFAULT_BASELINE)
    ∧ (img.length < 10 → glob = [] →
        getBaselineForImageP60 img glob false = DEFAULT_BASELINE)
    ∧ DEFAULT_BASELINE = 180000 := by
  refine ⟨by simp [getBaselineForImageP60], ?_, ?_, ?_, rfl⟩
  · intro h
    have hne : ¬ img.length = 0 := by omega
    simp [getBaselineForImageP60, percentile60, h, hne]
  · intro h hg
    have hne : ¬ glob.length = 0 := by omega
    have h' : ¬ 10 ≤ img.length := by omega
    simp [getBaselineForImageP60, percentile60, h', hne, hg]
  · intro h hg
    have h' : ¬ 10 ≤ img.length := by omega
    simp [getBaselineForImageP60, h', hg]

/-- C4 witness: ten identical per-image samples use the image p60; an
image list that is too short falls back to the single global sample; with
no data at all the result is exactly `DEFAULT_BASELINE`. -/
theorem baseline_p60_cases_spot :
    10 ≤ (List.replicate 10 (200000 : ℚ)).length
    ∧ getBaselineForImageP60 (List.replicate 10 (200000 : ℚ)) [] false
        = max ((List.insertionSort (· ≤ ·) (List.replicate 10 (200000 : ℚ))).getD
            (⌊(6 / 10 : ℚ) * (((List.replicate 10 (200000 : ℚ)).length : ℚ) - 1)⌋.toNat) 0)
            DEFAULT_BASELINE
    ∧ ([] : List ℚ).length < 10
    ∧ 0 < [(1 : ℚ)].length
    ∧ getBaselineForImageP60 [] [(1 : ℚ)] false
        = max ((List.insertionSort (· ≤ ·) [(1 : ℚ)]).getD
            (⌊(6 / 10 : ℚ) * ((([(1 : ℚ)]).length : ℚ) - 1)⌋.toNat) 0) DEFAULT_BASELINE
    ∧ getBaselineForImageP60 [] [] false = DEFAULT_BASELINE :=
  ⟨by simp, (baseline_p60_cases (List.replicate 10 (200000 : ℚ)) []).2.1 (by simp),
    by simp, by simp,
    (baseline_p60_cases [] [(1 : ℚ)]).2.2.1 (by simp) (by simp),
    (baseline_p60_cases [] []).2.2.2.1 (by simp) rfl⟩

/-- C9: `applyEloForRound` persists the player rating with
`update({ rating: newPlayer })` — an absolute overwrite of a value computed
from its own earlier fetch, not an atomic increment.  Under the
fetch-A/fetch-B/write-A/write-B interleaving of two concurrent settlements
for the same player (each worth `totalDelta = −27` from rating 1500), the
stored rating ends at `1473 = 1500 − 27`: settlement A's delta is silently
lost, whereas the claimed atomic increment would end at `1446 = 1500 − 54`. -/
theorem rating_write_lost_update :
    (eloWithFetched 1500 hardStopArgs).totalDelta = -27
    ∧ interleavedFinalRating 1500 hardStopArgs hardStopArgs = 1473
    ∧ interleavedFinalRating 1500 hardStopArgs hardStopArgs
        ≠ 1500 + ((eloWithFetched 1500 hardStopArgs).totalDelta : ℚ)
            + ((eloWithFetched 1500 hardStopArgs).totalDelta : ℚ) := by
  have hbd : (eloWithFetched 1500 hardStopArgs).baseDelta = -7 := by
    simp only [eloWithFetched, hardStopArgs, applyEloCore, jroundR]
    norm_num [min_def, max_def]
  have hp : (eloWithFetched 1500 hardStopArgs).penalty = 20 := by
    simp only [eloWithFetched, hardStopArgs, applyEloCore, missPenaltyPoints, jround]
    norm_num [min_def, max_def]
  have htd : (eloWithFetched 1500 hardStopArgs).totalDelta = -27 := by
    have h : (eloWithFetched 1500 hardStopArgs).totalDelta
        = (eloWithFetched 1500 hardStopArgs).baseDelta
          - (eloWithFetched 1500 hardStopArgs).penalty := by
      simp [eloWithFetched, applyEloCore]
    rw [h, hbd, hp]
    norm_num
  have hpa : (eloWithFetched 1500 hardStopArgs).playerAfter = 1473 := by
    have h : (eloWithFetched 1500 hardStopArgs).playerAfter
        = 1500 + ((eloWithFetched 1500 hardStopArgs).totalDelta : ℚ) := by
      simp [eloWithFetched, hardStopArgs, applyEloCore]
    rw [h, htd]
    norm_num
  have hfin : interleavedFinalRating 1500 hardStopArgs hardStopArgs = 1473 := by
    rw [interleavedFinalRating]
    exact hpa
  refine ⟨htd, hfin, ?_⟩
  rw [hfin, htd]
  norm_num

theorem runRoundsAux_length (evs : List RoundEventData) :
    ∀ hist, (runRoundsAux hist evs).length = evs.length := by
  induction evs with
  | nil => intro hist; simp [runRoundsAux]
  | cons e es ih => intro hist; simp [runRoundsAux, ih]

theorem settleRound_rated (hist : List ScoreRow) (e : RoundEventData) :
    (settleRound hist e).rated = !(histHasSuccess hist) := by
  rcases e with ⟨o, raw, b, m, p, i⟩
  cases o <;>
    simp [settleRound, endRoundSuccessCore, endRoundHardStopCore, endRoundGiveUpCore]

theorem settleRound_unrated (hist : List ScoreRow) (e : RoundEventData)
    (h : (settleRound hist e).rated = false) :
    (settleRound hist e).elo = none
    ∧ (settleRound hist e).row.elo_player_before = none
    ∧ (settleRound hist e).row.elo_image_before = none
    ∧ (settleRound hist e).row.elo_player_after = none
    ∧ (settleRound hist e).row.elo_image_after = none := by
  rw [settleRound_rated] at h
  have hsb : histHasSuccess hist = true := by
    cases hh : histHasSuccess hist
    · rw [hh] at h
      simp at h
    · rfl
  rcases e with ⟨o, raw, b, m, p, i⟩
  cases o <;>
    simp [settleRound, endRoundSuccessCore, endRoundHardStopCore, endRoundGiveUpCore,
      mkRow, hsb]

theorem runRoundsAux_getD (evs : List RoundEventData) :
    ∀ (hist : List ScoreRow) (i : ℕ), i < evs.length →
      (runRoundsAux hist evs).getD i defaultSettlement
        = settleRound (hist ++ ((runRoundsAux hist evs).take i).map (fun st => st.row))
            (evs.getD i defaultEvent) := by
  induction evs with
  | nil => intro hist i hi; simp at hi
  | cons e es ih =>
    intro hist i hi
    cases i with
    | zero => simp [runRoundsAux]
    | succ j =>
      have hj : j < es.length := by simpa using hi
      simp only [runRoundsAux, List.getD_cons_succ, List.take_succ_cons, List.map_cons]
      rw [ih (hist ++ [(settleRound hist e).row]) j hj]
      simp [List.append_assoc]

/-- C3: at every settlement of a round sequence for a fixed
`(playerId, imageId)` pair, `rated` is the negation of "some prior persisted
row has `result = success`" (the fresh history scan at settlement time); when
`rated` is false the Elo updater is not called (`elo = none`) and all four
Elo snapshot columns are persisted as `null`; hence any round strictly after
a success has `rated = false`, so only rounds up to and including the first
success can be rated. -/
theorem rated_first_success (evs : List RoundEventData) (i : ℕ) (hi : i < evs.length) :
    ((runRounds evs).getD i defaultSettlement).rated
        = !(histHasSuccess (((runRounds evs).take i).map (fun st => st.row)))
    ∧ (((runRounds evs).getD i defaultSettlement).rated = false →
        ((runRounds evs).getD i defaultSettlement).elo = none
        ∧ ((runRounds evs).getD i defaultSettlement).row.elo_player_before = none
        ∧ ((runRounds evs).getD i defaultSettlement).row.elo_image_before = none
        ∧ ((runRounds evs).getD i defaultSettlement).row.elo_player_after = none
        ∧ ((runRounds evs).getD i defaultSettlement).row.elo_image_after = none)
    ∧ ∀ j, j < i →
        ((runRounds evs).getD j defaultSettlement).row.result = RoundResult.success →
        ((runRounds evs).getD i defaultSettlement).rated = false := by
  have hlen : (runRounds evs).length = evs.length := runRoundsAux_length evs []
  have hget : (runRounds evs).getD i defaultSettlement
      = settleRound (((runRounds evs).take i).map (fun st => st.row))
          (evs.getD i defaultEvent) := by
    have h := runRoundsAux_getD evs [] i hi
    simpa [runRounds] using h
  refine ⟨?_, ?_, ?_⟩
  · rw [hget, settleRound_rated]
  · intro h
    rw [hget] at h ⊢
    exact settleRound_unrated _ _ h
  · intro j hj hsucc
    have hjl : j < (runRounds evs).length := by omega
    have hgj : (runRounds evs).getD j defaultSettlement = (runRounds evs)[j] :=
      List.getD_eq_getElem _ _ hjl
    have hjt : j < ((runRounds evs).take i).length := by
      simp only [List.length_take]
      omega
    have hmem : (runRounds evs)[j] ∈ (runRounds evs).take i := by
      have h1 : ((runRounds evs).take i)[j] = (runRounds evs)[j] :=
        List.getElem_take (runRounds evs)
      rw [← h1]
      exact List.getElem_mem hjt
    have hrow : ((runRounds evs)[j]).row ∈ ((runRounds evs).take i).map (fun st => st.row) :=
      List.mem_map_of_mem _ hmem
    have hp : (((runRounds evs)[j]).row.result).isSuccess = true := by
      rw [hgj] at hsucc
      rw [hsucc]
      rfl
    have hany : histHasSuccess (((runRounds evs).take i).map (fun st => st.row)) = true :=
      List.any_eq_true.mpr ⟨_, hrow, hp⟩
    rw [hget, settleRound_rated, hany]
    rfl

/-- C3 witness: two consecutive successes of the same pair; the law applied
to the second round (index 1). -/
theorem rated_first_success_spot :
    1 < [successEv, successEv].length
    ∧ (((runRounds [successEv, successEv]).getD 1 defaultSettlement).rated
          = !(histHasSuccess (((runRounds [successEv, successEv]).take 1).map
              (fun st => st.row)))
      ∧ (((runRounds [successEv, successEv]).getD 1 defaultSettlement).rated = false →
          ((runRounds [successEv, successEv]).getD 1 defaultSettlement).elo = none
          ∧ ((runRounds [successEv, successEv]).getD 1
              defaultSettlement).row.elo_player_before = none
          ∧ ((runRounds [successEv, successEv]).getD 1
              defaultSettlement).row.elo_image_before = none
          ∧ ((runRounds [successEv, successEv]).getD 1
              defaultSettlement).row.elo_player_after = none
          ∧ ((runRounds [successEv, successEv]).getD 1
              defaultSettlement).row.elo_image_after = none)
      ∧ ∀ j, j < 1 →
          ((runRounds [successEv, successEv]).getD j defaultSettlement).row.result
            = RoundResult.success →
          ((runRounds [successEv, successEv]).getD 1 defaultSettlement).rated = false) :=
  ⟨by simp, rated_first_success [successEv, successEv] 1 (by simp)⟩

theorem stepRound_classify (env : RoundEnv) (s : RoundState) (ev : RoundEvent) :
    stepRound env s ev = s
    ∨ ((stepRound env s ev).locked = s.locked
        ∧ (stepRound env s ev).rows = s.rows
        ∧ (stepRound env s ev).eloCalls = s.eloCalls)
    ∨ (s.locked = false
        ∧ (stepRound env s ev).locked = true
        ∧ (stepRound env s ev).rows.length = s.rows.length + 1
        ∧ (stepRound env s ev).eloCalls ≤ s.eloCalls + 1) := by
  cases ev with
  | giveUpAt t =>
    by_cases h1 : s.locked = true
    · left
      simp [stepRound, handleGiveUp, h1]
    · have h1' : s.locked = false := by simpa using h1
      right; right
      refine ⟨h1', ?_, ?_, ?_⟩
      · simp [stepRound, handleGiveUp, h1', doEndGiveUp, settleWith]
      · simp [stepRound, handleGiveUp, h1', doEndGiveUp, settleWith]
      · simp only [stepRound, handleGiveUp, h1', doEndGiveUp, settleWith,
          Bool.false_eq_true, if_false]
        split <;> simp
  | click c =>
    by_cases h1 : s.locked = true
    · left
      simp [stepRound, handleClick, h1]
    · have h1' : s.locked = false := by simpa using h1
      by_cases h2 : 10 ≤ s.misses
      · left
        simp [stepRound, handleClick, h1', h2]
      · by_cases h3 : c.now - s.lastMissAt < MISS_COOLDOWN_MS
        · left
          simp [stepRound, handleClick, h1', h2, h3]
        · by_cases h4 : s.status = .ready ∧ s.started = true
          · by_cases h5 : hitTest env c
            · right; right
              refine ⟨h1', ?_, ?_, ?_⟩
              · simp [stepRound, handleClick, h1', h2, h3, h4.1, h4.2, h5,
                  doEndSuccess, settleWith]
              · simp [stepRound, handleClick, h1', h2, h3, h4.1, h4.2, h5,
                  doEndSuccess, settleWith]
              · simp only [stepRound, handleClick, h1', h2, h3, h4.1, h4.2, h5,
                  doEndSuccess, settleWith, Bool.false_eq_true, if_false,
                  not_true_eq_false, and_true, if_true, ite_false, ite_true]
                split <;> simp
            · by_cases h6 : 10 ≤ min 10 (s.misses + 1)
              · right; right
                refine ⟨h1', ?_, ?_, ?_⟩
                · simp [stepRound, handleClick, h1', h2, h3, h4.1, h4.2, h5, h6,
                    doEndHardStop, settleWith]
                · simp [stepRound, handleClick, h1', h2, h3, h4.1, h4.2, h5, h6,
                    doEndHardStop, settleWith]
                · simp only [stepRound, handleClick, h1', h2, h3, h4.1, h4.2, h5, h6,
                    doEndHardStop, settleWith, Bool.false_eq_true, if_false,
                    not_true_eq_false, and_true, if_true, ite_false, ite_true]
                  split <;> simp
              · right; left
                refine ⟨?_, ?_, ?_⟩ <;>
                  simp [stepRound, handleClick, h1', h2, h3, h4.1, h4.2, h5, h6]
          · left
            simp [stepRound, handleClick, h1', h2, h3, h4]

theorem runRound_invariant (env : RoundEnv) (evs : List RoundEvent) :
    ∀ s : RoundState,
      (s.locked = false → s.rows.length = 0 ∧ s.eloCalls = 0) →
      s.rows.length ≤ 1 → s.eloCalls ≤ 1 →
      (runRound env s evs).rows.length ≤ 1 ∧ (runRound env s evs).eloCalls ≤ 1 := by
  induction evs with
  | nil =>
    intro s _ h1 h2
    exact ⟨h1, h2⟩
  | cons e es ih =>
    intro s h0 h1 h2
    show (runRound env (stepRound env s e) es).rows.length ≤ 1
        ∧ (runRound env (stepRound env s e) es).eloCalls ≤ 1
    rcases stepRound_classify env s e with heq | ⟨hl, hr, he⟩ | ⟨hl0, hl, hlen, hele⟩
    · rw [heq]
      exact ih s h0 h1 h2
    · refine ih _ ?_ ?_ ?_
      · intro hf
        rw [hl] at hf
        rw [hr, he]
        exact h0 hf
      · rw [hr]
        exact h1
      · rw [he]
        exact h2
    · refine ih _ ?_ ?_ ?_
      · intro hf
        rw [hl] at hf
        cases hf
      · rw [hlen, (h0 hl0).1]
      · have := (h0 hl0).2
        omega

/-- C7: once the round lock is set on entering a terminal state, every
subsequent click registration and every give-up request is an exact no-op
on the round state (so re-invoking settlement on a locked round changes
nothing); consequently any event trace from a freshly started round
persists at most one `scores` row and performs at most one rating
mutation. -/
theorem locked_idempotent (env : RoundEnv) (s : RoundState) (c : ClickInput) (now t0 : ℚ)
    (evs : List RoundEvent) (h : s.locked = true) :
    handleClick env s c = s
    ∧ handleGiveUp env s now = s
    ∧ (runRound env (initState t0) evs).rows.length ≤ 1
    ∧ (runRound env (initState t0) evs).eloCalls ≤ 1 := by
  have hinv := runRound_invariant env evs (initState t0)
    (by intro _; exact ⟨rfl, rfl⟩) (by simp [initState]) (by simp [initState])
  exact ⟨by simp [handleClick, h], by simp [handleGiveUp, h], hinv.1, hinv.2⟩

/-- C7 witness: the no-op behaviour at a concrete locked state; the
at-most-one bounds after the empty trace from a fresh round. -/
theorem locked_idempotent_spot :
    lockedState.locked = true
    ∧ (handleClick spotEnv lockedState spotClick = lockedState
      ∧ handleGiveUp spotEnv lockedState 6000 = lockedState
      ∧ (runRound spotEnv (initState 0) []).rows.length ≤ 1
      ∧ (runRound spotEnv (initState 0) []).eloCalls ≤ 1) :=
  ⟨rfl, locked_idempotent spotEnv lockedState spotClick 6000 0 [] rfl⟩

/-- C8 counterexample: a round that is active (started, status ready, not
locked, 1 miss) receives a dead-centre click (`hitTest` holds — the scaled
Euclidean distance is 0 ≤ radius) only 100 ms after the last registered
miss; `handleClick` drops it in the 250 ms cooldown guard, so the round
does not transition to success — the state is unchanged and stays
unlocked. -/
theorem hit_click_success_cex :
    cooldownState.locked = false
    ∧ cooldownState.status = .ready
    ∧ cooldownState.started = true
    ∧ cooldownState.misses < 10
    ∧ hitTest spotEnv spotClick
    ∧ handleClick spotEnv cooldownState spotClick = cooldownState
    ∧ (handleClick spotEnv cooldownState spotClick).locked = false
    ∧ (handleClick spotEnv cooldownState spotClick).rows = [] := by
  have hhit : hitTest spotEnv spotClick := by
    have h0 : ((5 : ℚ) * 100 / 100 - 5) = 0 := by norm_num
    simp only [hitTest, spotEnv, spotClick, spotTarget, h0]
    norm_num
  have hdrop : handleClick spotEnv cooldownState spotClick = cooldownState := by
    rw [handleClick]
    norm_num [cooldownState, spotClick, MISS_COOLDOWN_MS]
  refine ⟨rfl, rfl, rfl, by norm_num [cooldownState], hhit, hdrop, ?_, ?_⟩
  · rw [hdrop]
    rfl
  · rw [hdrop]
    rfl

/-- C8 (amended): whenever the round is active (started, status ready, not
locked, miss count below 10) and at least 250 ms have passed since the last
registered miss, a click whose scaled Euclidean distance to the target
centre is at most the target radius (`hitTest`) ends the round in success:
`handleClick` runs the success settlement, the lock is set, the status
becomes found, and one `scores` row with `result = success` is appended. -/
theorem hit_click_success (env : RoundEnv) (s : RoundState) (c : ClickInput)
    (hlock : s.locked = false) (hm : s.misses < 10)
    (hstat : s.status = .ready) (hstart : s.started = true)
    (hcool : MISS_COOLDOWN_MS ≤ c.now - s.lastMissAt)
    (hhit : hitTest env c) :
    handleClick env s c = doEndSuccess env s c.now
    ∧ (handleClick env s c).locked = true
    ∧ (handleClick env s c).status = .found
    ∧ (handleClick env s c).rows
        = s.rows ++ [(endRoundSuccessCore (max 0 (jround (c.now - s.roundStartTime) : ℚ))
            env.baselineMs (s.misses : ℚ) env.solvedBefore env.playerRating
            env.imageRating).row]
    ∧ (endRoundSuccessCore (max 0 (jround (c.now - s.roundStartTime) : ℚ))
        env.baselineMs (s.misses : ℚ) env.solvedBefore env.playerRating
        env.imageRating).row.result = RoundResult.success := by
  have hnm : ¬ 10 ≤ s.misses := not_le.mpr hm
  have hnc : ¬ c.now - s.lastMissAt < MISS_COOLDOWN_MS := not_lt.mpr hcool
  have hmain : handleClick env s c = doEndSuccess env s c.now := by
    simp [handleClick, hlock, hnm, hnc, hstat, hstart, hhit]
  refine ⟨hmain, ?_, ?_, ?_, ?_⟩
  · rw [hmain]
    rfl
  · rw [hmain]
    rfl
  · rw [hmain]
    rfl
  · simp [endRoundSuccessCore, mkRow]

/-- C8 witness: the amended transition at a concrete active state — a fresh
round (no prior miss, cooldown satisfied at `t = 5000`) and the dead-centre
`spotClick`. -/
theorem hit_click_success_spot :
    (initState 0).locked = false
    ∧ (initState 0).misses < 10
    ∧ (initState 0).status = .ready
    ∧ (initState 0).started = true
    ∧ MISS_COOLDOWN_MS ≤ spotClick.now - (initState 0).lastMissAt
    ∧ hitTest spotEnv spotClick
    ∧ (handleClick spotEnv (initState 0) spotClick = doEndSuccess spotEnv (initState 0) spotClick.now
      ∧ (handleClick spotEnv (initState 0) spotClick).locked = true
      ∧ (handleClick spotEnv (initState 0) spotClick).status = .found
      ∧ (handleClick spotEnv (initState 0) spotClick).rows
          = (initState 0).rows
            ++ [(endRoundSuccessCore
                (max 0 (jround (spotClick.now - (initState 0).roundStartTime) : ℚ))
                spotEnv.baselineMs ((initState 0).misses : ℚ) spotEnv.solvedBefore
                spotEnv.playerRating spotEnv.imageRating).row]
      ∧ (endRoundSuccessCore
          (max 0 (jround (spotClick.now - (initState 0).roundStartTime) : ℚ))
          spotEnv.baselineMs ((initState 0).misses : ℚ) spotEnv.solvedBefore
          spotEnv.playerRating spotEnv.imageRating).row.result = RoundResult.success) := by
  have hhit : hitTest spotEnv spotClick := by
    have h0 : ((5 : ℚ) * 100 / 100 - 5) = 0 := by norm_num
    simp only [hitTest, spotEnv, spotClick, spotTarget, h0]
    norm_num
  have hcool : MISS_COOLDOWN_MS ≤ spotClick.now - (initState 0).lastMissAt := by
    simp only [spotClick, initState, MISS_COOLDOWN_MS]
    norm_num
  exact ⟨rfl, by norm_num [initState], rfl, rfl, hcool, hhit,
    hit_click_success spotEnv (initState 0) spotClick rfl (by norm_num [initState])
      rfl rfl hcool hhit⟩

end FindSniper
